import Mathlib

/-!
Verification of the Telegram-to-Discord bridge (`src/telegram_bridge.py`).

This file gives a shallow embedding of the core pipeline of the bridge:
UTF-16 offset translation (`_utf16_offset_to_py_index`), Markdown rendering
of Telegram entities (`_apply_telegram_entities_to_discord_markdown`),
media selection (`pick_telegram_media`), content assembly
(`build_discord_content`), and the retrying webhook dispatch
(`post_to_discord_webhook`, `send_to_discord`).  Python strings are
modelled as Lean `String` (a list of Unicode scalar values, matching
Python's code-point indexing); Python ints as `Int`/`Nat`.
-/

namespace TelegramBridge

/-! ## OffsetMapper: `_utf16_offset_to_py_index` -/

/-- UTF-16 code units contributed by one character, as counted by the
source: `count += 2 if ord(ch) > 0xFFFF else 1`. -/
def charUtf16 (c : Char) : Nat := if c.toNat > 0xFFFF then 2 else 1

/-- UTF-16 length of a character list (sum of per-character unit counts). -/
def utf16LenL : List Char → Nat
  | [] => 0
  | c :: r => charUtf16 c + utf16LenL r

/-- UTF-16 length of a Python string. -/
def utf16Len (s : String) : Nat := utf16LenL s.data

/-- The `for i, ch in enumerate(s)` loop body of `_utf16_offset_to_py_index`:
`count` is the running UTF-16 count, `i` the current native index; on
overshoot return `i`, on exact hit return `i + 1`, on exhaustion return
the full length (here: `i`, which then equals `len(s)`). -/
def utf16Loop (off : Nat) : List Char → Nat → Nat → Nat
  | [], _, i => i
  | c :: rest, count, i =>
    if off < count + charUtf16 c then i
    else if count + charUtf16 c = off then i + 1
    else utf16Loop off rest (count + charUtf16 c) (i + 1)

/-- `_utf16_offset_to_py_index(s, utf16_offset)`: convert a UTF-16 offset
to a Python string index; non-positive offsets map to 0. -/
def utf16_offset_to_py_index (s : String) (utf16_offset : Int) : Nat :=
  if utf16_offset ≤ 0 then 0
  else utf16Loop utf16_offset.toNat s.data 0 0

theorem charUtf16_pos (c : Char) : 1 ≤ charUtf16 c := by
  unfold charUtf16; split <;> omega

theorem utf16LenL_eq_zero {l : List Char} (h : utf16LenL l = 0) : l = [] := by
  cases l with
  | nil => rfl
  | cons c r =>
    exfalso
    have hc := charUtf16_pos c
    simp only [utf16LenL] at h
    omega

/-- If the remaining UTF-16 budget covers the whole list, the loop runs to
exhaustion and yields the index past the last character. -/
theorem utf16Loop_all (off : Nat) :
    ∀ (l : List Char) (count i : Nat), count + utf16LenL l ≤ off →
      utf16Loop off l count i = i + l.length := by
  intro l
  induction l with
  | nil => intro count i _; simp [utf16Loop]
  | cons c r ih =>
    intro count i h
    simp only [utf16LenL] at h
    have h1 : ¬ off < count + charUtf16 c := by omega
    by_cases h2 : count + charUtf16 c = off
    · have hr : utf16LenL r = 0 := by omega
      have hr2 : r = [] := utf16LenL_eq_zero hr
      subst hr2
      simp [utf16Loop, h1, h2]
    · have hrec := ih (count + charUtf16 c) (i + 1) (by omega)
      rw [show utf16Loop off (c :: r) count i
            = if off < count + charUtf16 c then i
              else if count + charUtf16 c = off then i + 1
              else utf16Loop off r (count + charUtf16 c) (i + 1) from rfl]
      rw [if_neg h1, if_neg h2, hrec, List.length_cons]
      omega

/-- Entering the loop with a target that is exactly the UTF-16 length of a
nonempty prefix `p` (relative to the running count) returns the native
length of `p`. -/
theorem utf16Loop_prefix (off : Nat) :
    ∀ (p q : List Char) (count i : Nat), p ≠ [] → off = count + utf16LenL p →
      utf16Loop off (p ++ q) count i = i + p.length := by
  intro p
  induction p with
  | nil => intro q count i h _; exact absurd rfl h
  | cons c r ih =>
    intro q count i _ hoff
    simp only [utf16LenL] at hoff
    have h1 : ¬ off < count + charUtf16 c := by omega
    by_cases hr : r = []
    · subst hr
      have h2 : count + charUtf16 c = off := by
        simp only [utf16LenL] at hoff; omega
      simp [utf16Loop, h1, h2]
    · have hpos : 1 ≤ utf16LenL r := by
        cases r with
        | nil => exact absurd rfl hr
        | cons d s =>
          have := charUtf16_pos d
          simp only [utf16LenL]; omega
      have h2 : ¬ count + charUtf16 c = off := by omega
      have hrec := ih q (count + charUtf16 c) (i + 1) hr (by omega)
      rw [List.cons_append]
      rw [show utf16Loop off (c :: (r ++ q)) count i
            = if off < count + charUtf16 c then i
              else if count + charUtf16 c = off then i + 1
              else utf16Loop off (r ++ q) (count + charUtf16 c) (i + 1) from rfl]
      rw [if_neg h1, if_neg h2, hrec, List.length_cons]
      omega

theorem string_data_append (s t : String) : (s ++ t).data = s.data ++ t.data := by
  cases s; cases t; rfl

theorem string_length_data (s : String) : s.length = s.data.length := by
  cases s; rfl

/-- Non-positive offsets clamp to index 0. -/
theorem utf16_index_of_nonpos (s : String) (off : Int) (h : off ≤ 0) :
    utf16_offset_to_py_index s off = 0 := by
  simp [utf16_offset_to_py_index, h]

/-- Offsets at or past the UTF-16 length clamp to the native length. -/
theorem utf16_index_of_ge (s : String) (off : Int) (h : (utf16Len s : Int) ≤ off) :
    utf16_offset_to_py_index s off = s.length := by
  unfold utf16_offset_to_py_index
  by_cases h0 : off ≤ 0
  · have hz : utf16Len s = 0 := by omega
    have hempty : s.data = [] := utf16LenL_eq_zero hz
    rw [if_pos h0, string_length_data, hempty]
    rfl
  · have hle : utf16Len s ≤ off.toNat := by omega
    rw [if_neg h0, utf16Loop_all off.toNat s.data 0 0 (by simpa [utf16Len] using hle)]
    rw [string_length_data]
    omega

/-- The mapper is the identity between UTF-16 prefix lengths and native
prefix lengths. -/
theorem utf16_index_prefix (p q : String) :
    utf16_offset_to_py_index (p ++ q) (utf16Len p) = p.length := by
  cases hp : p.data with
  | nil =>
    have hz : utf16Len p = 0 := by simp [utf16Len, hp, utf16LenL]
    have h0 : ((utf16Len p : Int) ≤ 0) := by omega
    rw [utf16_offset_to_py_index, if_pos h0, string_length_data, hp]
    rfl
  | cons c r =>
    have hpos : 1 ≤ utf16LenL p.data := by
      rw [hp]
      have := charUtf16_pos c
      simp only [utf16LenL]; omega
    have hnonpos : ¬ ((utf16Len p : Int) ≤ 0) := by
      simp only [utf16Len]; omega
    unfold utf16_offset_to_py_index
    rw [if_neg hnonpos]
    have htoNat : (utf16Len p : Int).toNat = utf16Len p := Int.toNat_natCast _
    rw [htoNat, string_data_append,
      utf16Loop_prefix (utf16Len p) p.data q.data 0 0 (by simp [hp]) (by simp [utf16Len])]
    rw [string_length_data]
    omega

/-- C7: for every string and every prefix of it, the offset mapper applied
at the UTF-16 code-unit length of the prefix returns exactly the native
length of that prefix (round-trip at every prefix boundary, including
strings with non-BMP characters). -/
theorem offset_mapper_roundtrip (p q : String) :
    utf16_offset_to_py_index (p ++ q) (utf16Len p) = p.length :=
  utf16_index_prefix p q

/-- C6: the offset mapper clamps: non-positive offsets map to 0, offsets at
or beyond the string's UTF-16 length map to the native length; each
character counts 1 UTF-16 unit, or 2 exactly when it lies outside the
Basic Multilingual Plane. -/
theorem offset_mapper_clamps (s : String) (off : Int) :
    (off ≤ 0 → utf16_offset_to_py_index s off = 0) ∧
    ((utf16Len s : Int) ≤ off → utf16_offset_to_py_index s off = s.length) ∧
    (∀ c : Char, (charUtf16 c = 1 ↔ c.toNat ≤ 0xFFFF) ∧
      (charUtf16 c = 2 ↔ 0xFFFF < c.toNat)) := by
  refine ⟨utf16_index_of_nonpos s off, utf16_index_of_ge s off, ?_⟩
  intro c
  by_cases hc : 0xFFFF < c.toNat
  · rw [show charUtf16 c = 2 from if_pos hc]
    constructor <;> constructor <;> intro h <;> omega
  · rw [show charUtf16 c = 1 from if_neg hc]
    constructor <;> constructor <;> intro h <;> omega

/-- Witness for C6 on concrete inputs (a string containing the non-BMP
character 😀). -/
theorem offset_mapper_clamps_witness :
    utf16_offset_to_py_index "a😀b" (-1) = 0 ∧
    utf16_offset_to_py_index "a😀b" 10 = ("a😀b" : String).length := by
  constructor
  · exact (offset_mapper_clamps "a😀b" (-1)).1 (by decide)
  · exact (offset_mapper_clamps "a😀b" 10).2.1 (by decide)

/-! ## MarkdownRenderer: `_apply_telegram_entities_to_discord_markdown` -/

/-- A Telegram message entity as probed by the source via
`getattr(e, field, None)`: every field may be absent. -/
structure Entity where
  type : Option String
  offset : Option Int
  length : Option Int
  url : Option String
  language : Option String
deriving DecidableEq

/-- `fmt_markers`: Telegram entity type -> (open, close) markers, in the
source's (insertion-ordered) dict order. -/
def fmt_markers : List (String × String × String) :=
  [("bold", "**", "**"), ("italic", "*", "*"), ("underline", "__", "__"),
   ("strikethrough", "~~", "~~"), ("code", "`", "`")]

/-- `supported = set(fmt_markers.keys()) | {"text_link", "pre"}`. -/
def supportedTypes : List String :=
  fmt_markers.map (fun p => p.1) ++ ["text_link", "pre"]

/-- The filter `getattr(e, "type", None) in supported`. -/
def entitySupported (e : Entity) : Bool :=
  match e.type with
  | some t => supportedTypes.contains t
  | none => false

/-- `ents = [e for e in entities if getattr(e, "type", None) in supported]`. -/
def filteredEnts (entities : List Entity) : List Entity :=
  entities.filter entitySupported

/-- Python's `str.startswith`: character-level prefix test. -/
def py_startswith (s p : String) : Bool := p.data.isPrefixOf s.data

/-- `marker_type_open(s)`: classify an open marker string back to the
entity type it came from (default "bold"). -/
def marker_type_open (s : String) : String :=
  if s = "[" then "text_link"
  else if py_startswith s "```" then "pre"
  else
    match fmt_markers.find? (fun p => p.2.1 == s) with
    | some p => p.1
    | none => "bold"

/-- `marker_type_close(s)`: classify a close marker string back to the
entity type it came from (default "bold"). -/
def marker_type_close (s : String) : String :=
  if py_startswith s "](" then "text_link"
  else if s = "\n```" then "pre"
  else
    match fmt_markers.find? (fun p => p.2.2 == s) with
    | some p => p.1
    | none => "bold"

/-- `open_priority.get(t, 100)`: opens sort outer-to-inner. -/
def open_priority : String → Nat
  | "pre" => 0
  | "bold" => 1
  | "italic" => 2
  | "underline" => 3
  | "strikethrough" => 4
  | "code" => 5
  | "text_link" => 10
  | _ => 100

/-- `close_priority.get(t, 100)`: closes sort inner-to-outer. -/
def close_priority : String → Nat
  | "text_link" => 1
  | "code" => 5
  | "strikethrough" => 6
  | "underline" => 7
  | "italic" => 8
  | "bold" => 9
  | "pre" => 20
  | _ => 100

/-- Sort key of an open marker string. -/
def openKeyOf (s : String) : Nat := open_priority (marker_type_open s)

/-- Sort key of a close marker string. -/
def closeKeyOf (s : String) : Nat := close_priority (marker_type_close s)

/-- Stable insertion into a key-sorted list (an element is placed before
the first element of greater-or-equal key it meets from the left of the
already-sorted later elements, preserving the original order of equal
keys, as Python's stable `list.sort` does). -/
def insertByKey (key : String → Nat) (x : String) : List String → List String
  | [] => [x]
  | y :: ys => if key x ≤ key y then x :: y :: ys else y :: insertByKey key x ys

/-- Stable sort by key, modelling `list.sort(key=...)`. -/
def sortByKey (key : String → Nat) : List String → List String
  | [] => []
  | x :: xs => insertByKey key x (sortByKey key xs)

/-- One iteration of the `for e in ents` marker-building loop: skip
entities with missing offset/length, discard invalid ranges
(`start >= end or end > len(text)`; negative indices cannot arise from the
mapper), then append `(index, marker)` pairs for the open map (first
component) and close map (second component). -/
def insertStep (text : String) (acc : List (Nat × String) × List (Nat × String))
    (e : Entity) : List (Nat × String) × List (Nat × String) :=
  match e.offset, e.length with
  | some off, some ln =>
    let start := utf16_offset_to_py_index text off
    let stop := utf16_offset_to_py_index text (off + ln)
    if stop ≤ start ∨ text.length < stop then acc
    else if e.type = some "text_link" then
      match e.url with
      | some url =>
        if url.data.isEmpty then acc
        else (acc.1 ++ [(start, "[")], acc.2 ++ [(stop, "](" ++ url ++ ")")])
      | none => acc
    else if e.type = some "pre" then
      (acc.1 ++ [(start,
          match e.language with
          | some lang => if lang.data.isEmpty then "```\n" else "```" ++ lang ++ "\n"
          | none => "```\n")],
       acc.2 ++ [(stop, "\n```")])
    else
      match fmt_markers.find? (fun p => e.type == some p.1) with
      | some p => (acc.1 ++ [(start, p.2.1)], acc.2 ++ [(stop, p.2.2)])
      | none => acc
  | _, _ => acc

/-- The `opens`/`closes` dict-of-lists after the marker-building loop,
kept as insertion-ordered `(index, marker)` pair lists. -/
def markerInserts (text : String) (ents : List Entity) :
    List (Nat × String) × List (Nat × String) :=
  ents.foldl (insertStep text) ([], [])

/-- `opens[i]` after the per-index stable sort by open priority. -/
def opensAt (text : String) (ents : List Entity) (i : Nat) : List String :=
  sortByKey openKeyOf
    (((markerInserts text ents).1.filter (fun p => p.1 == i)).map (fun p => p.2))

/-- `closes[i]` after the per-index stable sort by close priority. -/
def closesAt (text : String) (ents : List Entity) (i : Nat) : List String :=
  sortByKey closeKeyOf
    (((markerInserts text ents).2.filter (fun p => p.1 == i)).map (fun p => p.2))

/-- The single output pass `for i in range(len(text) + 1)`: at each index,
emit close markers, then open markers, then the character itself (absent
at the sentinel end position). -/
def renderPass (opens closes : Nat → List String) : Nat → List Char → String
  | i, [] => String.join (closes i) ++ String.join (opens i)
  | i, c :: rest =>
    String.join (closes i) ++
      (String.join (opens i) ++ (c.toString ++ renderPass opens closes (i + 1) rest))

/-- `_apply_telegram_entities_to_discord_markdown(text, entities)`. -/
def apply_telegram_entities_to_discord_markdown
    (text : String) (entities : List Entity) : String :=
  if text.data.isEmpty || entities.isEmpty then text
  else
    let ents := filteredEnts entities
    if ents.isEmpty then text
    else renderPass (opensAt text ents) (closesAt text ents) 0 text.data

theorem string_ext {s t : String} (h : s.data = t.data) : s = t := by
  cases s; cases t; exact congrArg String.mk h

theorem char_toString_data (c : Char) : (c.toString).data = [c] := rfl

theorem mem_insertByKey (key : String → Nat) (x : String) :
    ∀ {l : List String} {z : String}, z ∈ insertByKey key x l → z = x ∨ z ∈ l := by
  intro l
  induction l with
  | nil =>
    intro z hz
    simp only [insertByKey, List.mem_singleton] at hz
    exact Or.inl hz
  | cons y ys ih =>
    intro z hz
    simp only [insertByKey] at hz
    split at hz
    · rcases List.mem_cons.mp hz with h | h
      · exact Or.inl h
      · exact Or.inr h
    · rcases List.mem_cons.mp hz with h | h
      · exact Or.inr (by simp [h])
      · rcases ih h with h' | h'
        · exact Or.inl h'
        · exact Or.inr (by simp [h'])

theorem insertByKey_pairwise (key : String → Nat) (x : String) :
    ∀ {l : List String}, l.Pairwise (fun a b => key a ≤ key b) →
      (insertByKey key x l).Pairwise (fun a b => key a ≤ key b) := by
  intro l
  induction l with
  | nil => intro _; simp [insertByKey]
  | cons y ys ih =>
    intro hp
    rcases List.pairwise_cons.mp hp with ⟨hy, hys⟩
    simp only [insertByKey]
    split
    · rename_i hxy
      refine List.pairwise_cons.mpr ⟨?_, hp⟩
      intro z hz
      rcases List.mem_cons.mp hz with h | h
      · rw [h]; exact hxy
      · exact le_trans hxy (hy z h)
    · rename_i hxy
      refine List.pairwise_cons.mpr ⟨?_, ih hys⟩
      intro z hz
      rcases mem_insertByKey key x hz with h | h
      · rw [h]; omega
      · exact hy z h

/-- The stable per-index sort produces a list ordered by the sort key. -/
theorem sortByKey_pairwise (key : String → Nat) (l : List String) :
    (sortByKey key l).Pairwise (fun a b => key a ≤ key b) := by
  induction l with
  | nil => simp [sortByKey]
  | cons x xs ih => exact insertByKey_pairwise key x ih

/-- The original text survives the output pass as a subsequence. -/
theorem renderPass_data_sublist (opens closes : Nat → List String) :
    ∀ (cs : List Char) (i : Nat), List.Sublist cs (renderPass opens closes i cs).data := by
  intro cs
  induction cs with
  | nil => intro i; exact List.nil_sublist _
  | cons c rest ih =>
    intro i
    have hdata : (renderPass opens closes i (c :: rest)).data
        = (String.join (closes i)).data ++
            ((String.join (opens i)).data ++
              (c :: (renderPass opens closes (i + 1) rest).data)) := by
      rw [show renderPass opens closes i (c :: rest)
            = String.join (closes i) ++
                (String.join (opens i) ++
                  (c.toString ++ renderPass opens closes (i + 1) rest)) from rfl]
      rw [string_data_append, string_data_append, string_data_append,
        char_toString_data]
      simp
    rw [hdata]
    have h1 : List.Sublist (c :: rest) (c :: (renderPass opens closes (i + 1) rest).data) :=
      (ih (i + 1)).cons₂ c
    exact h1.trans ((List.sublist_append_right _ _).trans
      (List.sublist_append_right _ _))

/-- With no markers anywhere, the output pass returns exactly the text. -/
theorem renderPass_empty (opens closes : Nat → List String)
    (ho : ∀ j, opens j = []) (hc : ∀ j, closes j = []) :
    ∀ (cs : List Char) (i : Nat), renderPass opens closes i cs = String.mk cs := by
  intro cs
  induction cs with
  | nil =>
    intro i
    show String.join (closes i) ++ String.join (opens i) = String.mk []
    rw [hc i, ho i]
    rfl
  | cons c rest ih =>
    intro i
    show String.join (closes i) ++
        (String.join (opens i) ++ (c.toString ++ renderPass opens closes (i + 1) rest))
      = String.mk (c :: rest)
    rw [hc i, ho i, ih (i + 1)]
    apply string_ext
    rw [string_data_append, string_data_append, string_data_append, char_toString_data]
    rfl

/-- When all markers sit at index 0 (opens) and at the end index (closes),
the pass from index `i` onward emits the remaining characters followed by
the closing markers. -/
theorem renderPass_tail_data (opens closes : Nat → List String) :
    ∀ (cs : List Char) (i : Nat),
      (∀ j, i ≤ j → opens j = []) →
      (∀ j, i ≤ j → j < i + cs.length → closes j = []) →
      (renderPass opens closes i cs).data
        = cs ++ (String.join (closes (i + cs.length))).data := by
  intro cs
  induction cs with
  | nil =>
    intro i ho _
    show (String.join (closes i) ++ String.join (opens i)).data = _
    rw [ho i (le_refl i), string_data_append]
    simp
  | cons c rest ih =>
    intro i ho hc
    have hopen : opens i = [] := ho i (le_refl i)
    have hclose : closes i = [] := hc i (le_refl i) (by simp)
    show (String.join (closes i) ++
        (String.join (opens i) ++
          (c.toString ++ renderPass opens closes (i + 1) rest))).data = _
    rw [hopen, hclose, string_data_append, string_data_append, string_data_append,
      char_toString_data,
      ih (i + 1) (fun j hj => ho j (by omega))
        (fun j hj1 hj2 => hc j (by omega) (by simp only [List.length_cons]; omega))]
    have hidx : i + 1 + rest.length = i + (c :: rest).length := by
      simp only [List.length_cons]; omega
    rw [hidx]
    rfl

/-- C10: rendering only inserts marker strings: the original text is a
subsequence of the output (no character is deleted, replaced or
reordered); an empty annotation list, or one with no supported
annotations, leaves the text unchanged. -/
theorem render_preserves_text :
    (∀ (text : String) (entities : List Entity),
      List.Sublist text.data
        (apply_telegram_entities_to_discord_markdown text entities).data) ∧
    (∀ text : String, apply_telegram_entities_to_discord_markdown text [] = text) ∧
    (∀ (text : String) (entities : List Entity),
      (∀ e ∈ entities, entitySupported e = false) →
      apply_telegram_entities_to_discord_markdown text entities = text) := by
  refine ⟨?_, ?_, ?_⟩
  · intro text entities
    unfold apply_telegram_entities_to_discord_markdown
    split
    · exact List.Sublist.refl _
    · dsimp only
      split
      · exact List.Sublist.refl _
      · exact renderPass_data_sublist _ _ text.data 0
  · intro text
    unfold apply_telegram_entities_to_discord_markdown
    simp
  · intro text entities h
    unfold apply_telegram_entities_to_discord_markdown
    split
    · rfl
    · have hnil : filteredEnts entities = [] := by
        unfold filteredEnts
        rw [List.filter_eq_nil_iff]
        intro e he
        simp [h e he]
      simp [hnil]

/-- Witness for C10 at concrete inputs: an annotation with the unsupported
kind `url` leaves the text unchanged, and the text survives rendering of a
bold annotation as a subsequence. -/
theorem render_preserves_text_witness :
    apply_telegram_entities_to_discord_markdown "hi"
        [⟨some "url", some 0, some 2, none, none⟩] = "hi" ∧
    List.Sublist ("ab" : String).data (apply_telegram_entities_to_discord_markdown "ab"
        [⟨some "bold", some 0, some 2, none, none⟩]).data := by
  constructor
  · exact render_preserves_text.2.2 "hi" [⟨some "url", some 0, some 2, none, none⟩]
      (by intro e he; simp only [List.mem_singleton] at he; subst he; decide)
  · exact render_preserves_text.1 "ab" [⟨some "bold", some 0, some 2, none, none⟩]

theorem string_mk_data (s : String) : String.mk s.data = s := rfl

/-- The annotations claim C5 says are dropped: a degenerate span
(`offset=0, length=0`), a computed native end beyond the text length, an
unsupported kind, or a `text_link` with no url. -/
def annotationDroppable (text : String) (e : Entity) : Prop :=
  (e.offset = some 0 ∧ e.length = some 0)
  ∨ (∃ off ln, e.offset = some off ∧ e.length = some ln ∧
      text.length < utf16_offset_to_py_index text (off + ln))
  ∨ entitySupported e = false
  ∨ (e.type = some "text_link" ∧ e.url = none)

/-- A droppable (but supported) annotation adds nothing to the marker
maps. -/
theorem insertStep_skip (text : String) (e : Entity)
    (h : annotationDroppable text e) (hsupp : entitySupported e = true) :
    ∀ acc, insertStep text acc e = acc := by
  intro acc
  rcases h with ⟨h0, hl⟩ | ⟨off, ln, ho, hl, hlt⟩ | hbad | ⟨ht, hu⟩
  · have hz : utf16_offset_to_py_index text ((0 : Int) + 0) = 0 :=
      utf16_index_of_nonpos text (0 + 0) (by omega)
    simp [insertStep, h0, hl, hz]
  · simp [insertStep, ho, hl, hlt]
  · rw [hbad] at hsupp
    exact absurd hsupp (by simp)
  · cases hoe : e.offset with
    | none => simp [insertStep, hoe]
    | some off =>
      cases hle : e.length with
      | none => simp [insertStep, hoe, hle]
      | some ln =>
        simp only [insertStep, hoe, hle]
        by_cases hg : utf16_offset_to_py_index text (off + ln)
            ≤ utf16_offset_to_py_index text off
          ∨ text.length < utf16_offset_to_py_index text (off + ln)
        · rw [if_pos hg]
        · rw [if_neg hg, if_pos ht, hu]

/-- Removing an entity whose step is the identity from the middle of the
entity list leaves the marker maps unchanged. -/
theorem markerInserts_erase (text : String) (e : Entity) (l1 l2 : List Entity)
    (hstep : ∀ acc, insertStep text acc e = acc) :
    markerInserts text (l1 ++ e :: l2) = markerInserts text (l1 ++ l2) := by
  unfold markerInserts
  rw [List.foldl_append, List.foldl_append, List.foldl_cons, hstep]

theorem opensAt_of_no_markers (text : String) (ents : List Entity)
    (h : markerInserts text ents = ([], [])) :
    ∀ i, opensAt text ents i = [] := by
  intro i
  unfold opensAt
  rw [h]
  rfl

theorem closesAt_of_no_markers (text : String) (ents : List Entity)
    (h : markerInserts text ents = ([], [])) :
    ∀ i, closesAt text ents i = [] := by
  intro i
  unfold closesAt
  rw [h]
  rfl

/-- First early return of the renderer: empty text or empty entity list. -/
theorem apply_of_empty_guard (text : String) (entities : List Entity)
    (h : (text.data.isEmpty || entities.isEmpty) = true) :
    apply_telegram_entities_to_discord_markdown text entities = text := by
  unfold apply_telegram_entities_to_discord_markdown
  rw [if_pos h]

/-- Second early return of the renderer: no supported entities survive. -/
theorem apply_of_filtered_empty (text : String) (entities : List Entity)
    (h1 : (text.data.isEmpty || entities.isEmpty) = false)
    (h2 : (filteredEnts entities).isEmpty = true) :
    apply_telegram_entities_to_discord_markdown text entities = text := by
  unfold apply_telegram_entities_to_discord_markdown
  rw [if_neg (by rw [h1]; exact Bool.false_ne_true)]
  dsimp only
  rw [if_pos h2]

/-- Main path of the renderer: the single output pass over the text. -/
theorem apply_render (text : String) (entities : List Entity)
    (h1 : (text.data.isEmpty || entities.isEmpty) = false)
    (h2 : (filteredEnts entities).isEmpty = false) :
    apply_telegram_entities_to_discord_markdown text entities
      = renderPass (opensAt text (filteredEnts entities))
          (closesAt text (filteredEnts entities)) 0 text.data := by
  unfold apply_telegram_entities_to_discord_markdown
  rw [if_neg (by rw [h1]; exact Bool.false_ne_true)]
  dsimp only
  rw [if_neg (by rw [h2]; exact Bool.false_ne_true)]

/-- If the marker maps of the (nonempty) filtered entity list are empty,
rendering returns the text unchanged. -/
theorem render_of_no_markers (text : String) (entities : List Entity)
    (htext : text.data.isEmpty = false)
    (hne : entities.isEmpty = false)
    (hfne : (filteredEnts entities).isEmpty = false)
    (h : markerInserts text (filteredEnts entities) = ([], [])) :
    apply_telegram_entities_to_discord_markdown text entities = text := by
  rw [apply_render text entities (by rw [htext, hne]; rfl) hfne,
    renderPass_empty _ _ (opensAt_of_no_markers text _ h)
      (closesAt_of_no_markers text _ h) text.data 0]

/-- C5: an annotation with a degenerate span (`offset=0, length=0`), a
computed end beyond the text length, an unsupported kind, or a `text_link`
with no url contributes nothing to the rendered output: removing it from
anywhere in the annotation list leaves the (total, exception-free) render
of the remaining annotations unchanged. -/
theorem invalid_annotation_dropped (text : String) (e : Entity)
    (l1 l2 : List Entity) (h : annotationDroppable text e) :
    apply_telegram_entities_to_discord_markdown text (l1 ++ e :: l2)
      = apply_telegram_entities_to_discord_markdown text (l1 ++ l2) := by
  by_cases htext : text.data.isEmpty
  · rw [apply_of_empty_guard text _ (by rw [htext]; rfl),
      apply_of_empty_guard text _ (by rw [htext]; rfl)]
  · have htext' : text.data.isEmpty = false := by rwa [Bool.not_eq_true] at htext
    have hne1 : (l1 ++ e :: l2).isEmpty = false := by cases l1 <;> rfl
    by_cases hsupp : entitySupported e
    · -- e survives the kind filter but its marker step is the identity
      have hstep := insertStep_skip text e h hsupp
      have hfil : filteredEnts (l1 ++ e :: l2)
          = filteredEnts l1 ++ e :: filteredEnts l2 := by
        unfold filteredEnts
        rw [List.filter_append, List.filter_cons, if_pos hsupp]
      have hfil2 : filteredEnts (l1 ++ l2)
          = filteredEnts l1 ++ filteredEnts l2 := by
        unfold filteredEnts
        rw [List.filter_append]
      have hmark : markerInserts text (filteredEnts (l1 ++ e :: l2))
          = markerInserts text (filteredEnts (l1 ++ l2)) := by
        rw [hfil, hfil2]
        exact markerInserts_erase text e _ _ hstep
      have hfne1 : (filteredEnts (l1 ++ e :: l2)).isEmpty = false := by
        rw [hfil]; cases filteredEnts l1 <;> rfl
      by_cases hfe2 : (filteredEnts (l1 ++ l2)).isEmpty
      · -- the remaining annotations contribute no markers at all
        have hmark0 : markerInserts text (filteredEnts (l1 ++ l2)) = ([], []) := by
          rw [List.isEmpty_iff.mp hfe2]
          rfl
        rw [render_of_no_markers text (l1 ++ e :: l2) htext' hne1 hfne1
          (hmark.trans hmark0)]
        by_cases hne2 : (l1 ++ l2).isEmpty
        · rw [apply_of_empty_guard text _ (by rw [hne2, Bool.or_true])]
        · have hne2' : (l1 ++ l2).isEmpty = false := by
            rwa [Bool.not_eq_true] at hne2
          rw [apply_of_filtered_empty text _ (by rw [htext', hne2']; rfl) hfe2]
      · -- both sides render with identical marker maps
        have hfe2' : (filteredEnts (l1 ++ l2)).isEmpty = false := by
          rwa [Bool.not_eq_true] at hfe2
        have hne2 : (l1 ++ l2).isEmpty = false := by
          cases hll : l1 ++ l2 with
          | nil => rw [hll] at hfe2'; simp [filteredEnts] at hfe2'
          | cons a as => rfl
        have hop : opensAt text (filteredEnts (l1 ++ e :: l2))
            = opensAt text (filteredEnts (l1 ++ l2)) := by
          funext i
          unfold opensAt
          rw [hmark]
        have hcl : closesAt text (filteredEnts (l1 ++ e :: l2))
            = closesAt text (filteredEnts (l1 ++ l2)) := by
          funext i
          unfold closesAt
          rw [hmark]
        rw [apply_render text _ (by rw [htext', hne1]; rfl) hfne1,
          apply_render text _ (by rw [htext', hne2]; rfl) hfe2', hop, hcl]
    · -- e is removed by the kind filter itself
      have hsupp' : entitySupported e = false := by
        rwa [Bool.not_eq_true] at hsupp
      have hfil : filteredEnts (l1 ++ e :: l2) = filteredEnts (l1 ++ l2) := by
        unfold filteredEnts
        rw [List.filter_append, List.filter_append, List.filter_cons,
          if_neg (by simp [hsupp'])]
      by_cases hne2 : (l1 ++ l2).isEmpty
      · have hz : l1 ++ l2 = [] := List.isEmpty_iff.mp hne2
        have hfe1 : (filteredEnts (l1 ++ e :: l2)).isEmpty = true := by
          rw [hfil, hz]
          rfl
        rw [apply_of_filtered_empty text _ (by rw [htext', hne1]; rfl) hfe1,
          apply_of_empty_guard text _ (by rw [hne2, Bool.or_true])]
      · have hne2' : (l1 ++ l2).isEmpty = false := by
          rwa [Bool.not_eq_true] at hne2
        by_cases hfe2 : (filteredEnts (l1 ++ l2)).isEmpty
        · have hfe1 : (filteredEnts (l1 ++ e :: l2)).isEmpty = true := by
            rw [hfil]
            exact hfe2
          rw [apply_of_filtered_empty text _ (by rw [htext', hne1]; rfl) hfe1,
            apply_of_filtered_empty text _ (by rw [htext', hne2']; rfl) hfe2]
        · have hfe2' : (filteredEnts (l1 ++ l2)).isEmpty = false := by
            rwa [Bool.not_eq_true] at hfe2
          have hfe1 : (filteredEnts (l1 ++ e :: l2)).isEmpty = false := by
            rw [hfil]
            exact hfe2'
          rw [apply_render text _ (by rw [htext', hne1]; rfl) hfe1,
            apply_render text _ (by rw [htext', hne2']; rfl) hfe2', hfil]

/-- Witness for C5: removing a degenerate `offset=0, length=0` bold
annotation from a list leaves the rendered output unchanged. -/
theorem invalid_annotation_dropped_witness :
    apply_telegram_entities_to_discord_markdown "ab"
        ([⟨some "bold", some 0, some 2, none, none⟩]
          ++ (⟨some "bold", some 0, some 0, none, none⟩ : Entity) :: [])
      = apply_telegram_entities_to_discord_markdown "ab"
        ([⟨some "bold", some 0, some 2, none, none⟩] ++ []) :=
  invalid_annotation_dropped "ab" ⟨some "bold", some 0, some 0, none, none⟩
    [⟨some "bold", some 0, some 2, none, none⟩] [] (Or.inl ⟨rfl, rfl⟩)

theorem string_append_assoc (a b c : String) : (a ++ b) ++ c = a ++ (b ++ c) := by
  apply string_ext
  rw [string_data_append, string_data_append, string_data_append, string_data_append,
    List.append_assoc]

theorem isPrefixOf_append_self (l t : List Char) : l.isPrefixOf (l ++ t) = true := by
  induction l with
  | nil => simp [List.isPrefixOf]
  | cons c cs ih => simp [List.isPrefixOf, ih]

/-- The close marker of a `text_link` is classified back to `text_link`
whatever the url, so its close priority is 1. -/
theorem closeKeyOf_link (url : String) : closeKeyOf ("](" ++ url ++ ")") = 1 := by
  have hpre : py_startswith ("](" ++ url ++ ")") "](" = true := by
    unfold py_startswith
    rw [string_append_assoc, string_data_append]
    exact isPrefixOf_append_self _ _
  unfold closeKeyOf marker_type_close
  rw [if_pos hpre]
  decide

/-- A bold span and a link span over the whole text (offsets in UTF-16
units over the original text). -/
def boldSpanEnt (text : String) : Entity :=
  ⟨some "bold", some 0, some (utf16Len text), none, none⟩

/-- The `text_link` companion of `boldSpanEnt`. -/
def linkSpanEnt (text url : String) : Entity :=
  ⟨some "text_link", some 0, some (utf16Len text), some url, none⟩

/-- Per-index content of a two-entry marker list sitting at one index. -/
theorem sortedFilterMap_two (key : String → Nat) (n : Nat) (s1 s2 : String) (i : Nat) :
    sortByKey key
        ((([(n, s1), (n, s2)] : List (Nat × String)).filter (fun p => p.1 == i)).map
          (fun p => p.2))
      = if i = n then sortByKey key [s1, s2] else [] := by
  by_cases hi : i = n
  · subst hi
    simp [List.filter]
  · have h1 : (n == i) = false := beq_eq_false_iff_ne.mpr (Ne.symm hi)
    simp [List.filter, h1, hi, sortByKey]

theorem sort_opens_boldlink : sortByKey openKeyOf ["**", "["] = ["**", "["] := by decide

theorem sort_opens_linkbold : sortByKey openKeyOf ["[", "**"] = ["**", "["] := by decide

theorem sort_closes_boldlink (url : String) :
    sortByKey closeKeyOf ["**", "](" ++ url ++ ")"]
      = ["](" ++ url ++ ")", "**"] := by
  have h9 : closeKeyOf "**" = 9 := by decide
  simp [sortByKey, insertByKey, closeKeyOf_link url, h9]

theorem sort_closes_linkbold (url : String) :
    sortByKey closeKeyOf ["](" ++ url ++ ")", "**"]
      = ["](" ++ url ++ ")", "**"] := by
  have h9 : closeKeyOf "**" = 9 := by decide
  simp [sortByKey, insertByKey, closeKeyOf_link url, h9]

/-- Marker maps for a bold and a link annotation covering the whole text,
in that entity order. -/
theorem markerInserts_boldlink (text url : String)
    (htext : text.data ≠ []) (hurl : url.data ≠ []) :
    markerInserts text [boldSpanEnt text, linkSpanEnt text url]
      = ([(0, "**"), (0, "[")],
         [(text.length, "**"), (text.length, "](" ++ url ++ ")")]) := by
  have hstart : utf16_offset_to_py_index text 0 = 0 :=
    utf16_index_of_nonpos text 0 (le_refl 0)
  have hstop : utf16_offset_to_py_index text ((0 : Int) + (utf16Len text : Int))
      = text.length := by
    rw [zero_add]
    exact utf16_index_of_ge text _ (le_refl _)
  have hlen : 0 < text.length := by
    rw [string_length_data]
    cases hd : text.data with
    | nil => exact absurd hd htext
    | cons a as => simp
  have hg1 : ¬ (text.length ≤ 0 ∨ text.length < text.length) := by omega
  have hurlne : url.data.isEmpty = false := by
    cases hu : url.data with
    | nil => exact absurd hu hurl
    | cons a as => rfl
  have hgz : ¬ text.length = 0 := by omega
  unfold markerInserts
  rw [List.foldl_cons, List.foldl_cons, List.foldl_nil]
  simp only [insertStep, boldSpanEnt, linkSpanEnt, hstart, hstop]
  simp [hg1, hgz, hurlne, fmt_markers, List.find?]

/-- Marker maps for the same two annotations in the opposite entity
order. -/
theorem markerInserts_linkbold (text url : String)
    (htext : text.data ≠ []) (hurl : url.data ≠ []) :
    markerInserts text [linkSpanEnt text url, boldSpanEnt text]
      = ([(0, "["), (0, "**")],
         [(text.length, "](" ++ url ++ ")"), (text.length, "**")]) := by
  have hstart : utf16_offset_to_py_index text 0 = 0 :=
    utf16_index_of_nonpos text 0 (le_refl 0)
  have hstop : utf16_offset_to_py_index text ((0 : Int) + (utf16Len text : Int))
      = text.length := by
    rw [zero_add]
    exact utf16_index_of_ge text _ (le_refl _)
  have hlen : 0 < text.length := by
    rw [string_length_data]
    cases hd : text.data with
    | nil => exact absurd hd htext
    | cons a as => simp
  have hg1 : ¬ (text.length ≤ 0 ∨ text.length < text.length) := by omega
  have hurlne : url.data.isEmpty = false := by
    cases hu : url.data with
    | nil => exact absurd hu hurl
    | cons a as => rfl
  have hgz : ¬ text.length = 0 := by omega
  unfold markerInserts
  rw [List.foldl_cons, List.foldl_cons, List.foldl_nil]
  simp only [insertStep, boldSpanEnt, linkSpanEnt, hstart, hstop]
  simp [hg1, hgz, hurlne, fmt_markers, List.find?]

/-- Shape of the output pass with the bold-link opens at index 0 and the
closes at the end sentinel: `**[` ++ text ++ `](url)**`. -/
theorem renderPass_boldlink_shape (text url : String) (O C : Nat → List String)
    (htext : text.data ≠ [])
    (hO0 : O 0 = ["**", "["]) (hOi : ∀ i, i ≠ 0 → O i = [])
    (hC : ∀ i, C i = if i = text.length then ["](" ++ url ++ ")", "**"] else []) :
    renderPass O C 0 text.data = "**[" ++ text ++ "](" ++ url ++ ")**" := by
  obtain ⟨c, cs, hd⟩ : ∃ c cs, text.data = c :: cs := by
    cases hdd : text.data with
    | nil => exact absurd hdd htext
    | cons a as => exact ⟨a, as, rfl⟩
  have hn : text.length = cs.length + 1 := by
    rw [string_length_data, hd, List.length_cons]
  have hC0 : C 0 = [] := by
    rw [hC 0, if_neg (by omega)]
  apply string_ext
  rw [hd]
  rw [show renderPass O C 0 (c :: cs)
        = String.join (C 0) ++
            (String.join (O 0) ++ (c.toString ++ renderPass O C 1 cs)) from rfl]
  rw [hC0, hO0]
  rw [string_data_append, string_data_append, string_data_append, char_toString_data]
  rw [renderPass_tail_data O C cs 1 (fun j hj => hOi j (by omega))
    (fun j hj1 hj2 => by rw [hC j, if_neg (by omega)])]
  rw [hC (1 + cs.length), if_pos (by omega)]
  have j0 : (String.join ([] : List String)).data = [] := rfl
  have j1 : (String.join ["**", "["]).data = ['*', '*', '['] := rfl
  have j2 : (String.join ["](" ++ url ++ ")", "**"]).data
      = (']' :: '(' :: (url.data ++ [')', '*', '*'])) := by
    rw [show String.join ["](" ++ url ++ ")", "**"]
          = ("" ++ ("](" ++ url ++ ")")) ++ "**" from rfl]
    rw [string_data_append, string_data_append, string_data_append,
      string_data_append]
    simp
  rw [j0, j1, j2]
  rw [string_data_append, string_data_append, string_data_append,
    string_data_append, hd]
  simp

/-- Per-index opens for the bold-then-link entity order. -/
theorem opensAt_boldlink (text url : String)
    (htext : text.data ≠ []) (hurl : url.data ≠ []) :
    ∀ i, opensAt text [boldSpanEnt text, linkSpanEnt text url] i
      = if i = 0 then ["**", "["] else [] := by
  intro i
  unfold opensAt
  rw [markerInserts_boldlink text url htext hurl]
  rw [show (([(0, "**"), (0, "[")],
      [(text.length, "**"), (text.length, "](" ++ url ++ ")")]).1)
    = [(0, "**"), (0, "[")] from rfl]
  rw [sortedFilterMap_two openKeyOf 0 "**" "[" i, sort_opens_boldlink]

/-- Per-index closes for the bold-then-link entity order. -/
theorem closesAt_boldlink (text url : String)
    (htext : text.data ≠ []) (hurl : url.data ≠ []) :
    ∀ i, closesAt text [boldSpanEnt text, linkSpanEnt text url] i
      = if i = text.length then ["](" ++ url ++ ")", "**"] else [] := by
  intro i
  unfold closesAt
  rw [markerInserts_boldlink text url htext hurl]
  rw [show (([(0, "**"), (0, "[")],
      [(text.length, "**"), (text.length, "](" ++ url ++ ")")]).2)
    = [(text.length, "**"), (text.length, "](" ++ url ++ ")")] from rfl]
  rw [sortedFilterMap_two closeKeyOf text.length "**" ("](" ++ url ++ ")") i,
    sort_closes_boldlink]

/-- Per-index opens for the link-then-bold entity order. -/
theorem opensAt_linkbold (text url : String)
    (htext : text.data ≠ []) (hurl : url.data ≠ []) :
    ∀ i, opensAt text [linkSpanEnt text url, boldSpanEnt text] i
      = if i = 0 then ["**", "["] else [] := by
  intro i
  unfold opensAt
  rw [markerInserts_linkbold text url htext hurl]
  rw [show (([(0, "["), (0, "**")],
      [(text.length, "](" ++ url ++ ")"), (text.length, "**")]).1)
    = [(0, "["), (0, "**")] from rfl]
  rw [sortedFilterMap_two openKeyOf 0 "[" "**" i, sort_opens_linkbold]

/-- Per-index closes for the link-then-bold entity order. -/
theorem closesAt_linkbold (text url : String)
    (htext : text.data ≠ []) (hurl : url.data ≠ []) :
    ∀ i, closesAt text [linkSpanEnt text url, boldSpanEnt text] i
      = if i = text.length then ["](" ++ url ++ ")", "**"] else [] := by
  intro i
  unfold closesAt
  rw [markerInserts_linkbold text url htext hurl]
  rw [show (([(0, "["), (0, "**")],
      [(text.length, "](" ++ url ++ ")"), (text.length, "**")]).2)
    = [(text.length, "](" ++ url ++ ")"), (text.length, "**")] from rfl]
  rw [sortedFilterMap_two closeKeyOf text.length ("](" ++ url ++ ")") "**" i,
    sort_closes_linkbold]

theorem boldlink_supported (text url : String) :
    entitySupported (boldSpanEnt text) = true
      ∧ entitySupported (linkSpanEnt text url) = true := ⟨rfl, rfl⟩

/-- Rendering a bold and a link annotation over the whole text, in either
entity order, yields `**[` ++ text ++ `](url)**`. -/
theorem apply_boldlink (text url : String)
    (htext : text.data ≠ []) (hurl : url.data ≠ []) :
    apply_telegram_entities_to_discord_markdown text
        [boldSpanEnt text, linkSpanEnt text url]
      = "**[" ++ text ++ "](" ++ url ++ ")**" ∧
    apply_telegram_entities_to_discord_markdown text
        [linkSpanEnt text url, boldSpanEnt text]
      = "**[" ++ text ++ "](" ++ url ++ ")**" := by
  have htext' : text.data.isEmpty = false := by
    cases hd : text.data with
    | nil => exact absurd hd htext
    | cons a as => rfl
  have hfil1 : filteredEnts [boldSpanEnt text, linkSpanEnt text url]
      = [boldSpanEnt text, linkSpanEnt text url] := by
    unfold filteredEnts
    rw [List.filter_cons, List.filter_cons, List.filter_nil,
      if_pos (boldlink_supported text url).2, if_pos (boldlink_supported text url).1]
  have hfil2 : filteredEnts [linkSpanEnt text url, boldSpanEnt text]
      = [linkSpanEnt text url, boldSpanEnt text] := by
    unfold filteredEnts
    rw [List.filter_cons, List.filter_cons, List.filter_nil,
      if_pos (boldlink_supported text url).1, if_pos (boldlink_supported text url).2]
  constructor
  · rw [apply_render text _ (by rw [htext']; rfl) (by rw [hfil1]; rfl)]
    rw [hfil1]
    exact renderPass_boldlink_shape text url _ _ htext
      (by rw [opensAt_boldlink text url htext hurl 0]; simp)
      (fun i hi => by rw [opensAt_boldlink text url htext hurl i, if_neg hi])
      (closesAt_boldlink text url htext hurl)
  · rw [apply_render text _ (by rw [htext']; rfl) (by rw [hfil2]; rfl)]
    rw [hfil2]
    exact renderPass_boldlink_shape text url _ _ htext
      (by rw [opensAt_linkbold text url htext hurl 0]; simp)
      (fun i hi => by rw [opensAt_linkbold text url htext hurl i, if_neg hi])
      (closesAt_linkbold text url htext hurl)

/-- C1: marker ordering is deterministic.  The open priorities satisfy
`pre < bold < italic < underline < strikethrough < code < text_link` and
the close priorities the exact reverse (`text_link` closes first, `pre`
last); every per-index opens and closes block the output pass emits is
sorted by those priorities (closes before opens before the character, by
the pass structure); and a bold annotation and a `text_link` annotation
covering the same whole-text range render as `**[label](url)**` in either
entity order, with no interleaving of markers. -/
theorem marker_ordering_deterministic :
    (open_priority "pre" < open_priority "bold"
      ∧ open_priority "bold" < open_priority "italic"
      ∧ open_priority "italic" < open_priority "underline"
      ∧ open_priority "underline" < open_priority "strikethrough"
      ∧ open_priority "strikethrough" < open_priority "code"
      ∧ open_priority "code" < open_priority "text_link"
      ∧ close_priority "text_link" < close_priority "code"
      ∧ close_priority "code" < close_priority "strikethrough"
      ∧ close_priority "strikethrough" < close_priority "underline"
      ∧ close_priority "underline" < close_priority "italic"
      ∧ close_priority "italic" < close_priority "bold"
      ∧ close_priority "bold" < close_priority "pre") ∧
    (∀ (text : String) (ents : List Entity) (i : Nat),
      (opensAt text ents i).Pairwise (fun a b => openKeyOf a ≤ openKeyOf b) ∧
      (closesAt text ents i).Pairwise (fun a b => closeKeyOf a ≤ closeKeyOf b)) ∧
    (∀ (text url : String), text.data ≠ [] → url.data ≠ [] →
      apply_telegram_entities_to_discord_markdown text
          [boldSpanEnt text, linkSpanEnt text url]
        = "**[" ++ text ++ "](" ++ url ++ ")**" ∧
      apply_telegram_entities_to_discord_markdown text
          [linkSpanEnt text url, boldSpanEnt text]
        = "**[" ++ text ++ "](" ++ url ++ ")**") := by
  refine ⟨by decide, ?_, apply_boldlink⟩
  intro text ents i
  exact ⟨sortByKey_pairwise openKeyOf _, sortByKey_pairwise closeKeyOf _⟩

/-- Witness for C1: bold + link over `"label"` with url `"u"` render as
`**[label](u)**`, in both entity orders. -/
theorem marker_ordering_deterministic_witness :
    apply_telegram_entities_to_discord_markdown "label"
        [boldSpanEnt "label", linkSpanEnt "label" "u"] = "**[label](u)**" ∧
    apply_telegram_entities_to_discord_markdown "label"
        [linkSpanEnt "label" "u", boldSpanEnt "label"] = "**[label](u)**" := by
  have h := marker_ordering_deterministic.2.2 "label" "u" (by decide) (by decide)
  constructor
  · rw [h.1]; decide
  · rw [h.2]; decide

/-! ## DispatchClient: `post_to_discord_webhook` retry loop -/

/-- Result of one `client.post(...)` + `raise_for_status()` call:
success (2xx), an `httpx.HTTPStatusError` carrying the status code, or an
`httpx.RequestError` (network-level failure). -/
inductive HttpResult where
  | success : HttpResult
  | status : Nat → HttpResult
  | netError : HttpResult
deriving DecidableEq

/-- The exception with which `post_to_discord_webhook` ultimately raises. -/
inductive PostError where
  | httpStatus : Nat → PostError
  | requestError : PostError
deriving DecidableEq

/-- Observable behaviour of one `post_to_discord_webhook` call: the final
result, the number of `client.post` attempts performed, and the list of
`asyncio.sleep` backoff durations (seconds), in order. -/
structure PostRun where
  result : Except PostError Unit
  attempts : Nat
  sleeps : List Nat

/-- `for attempt in range(3)` body of `post_to_discord_webhook`.  The
`responses` function gives the outcome of the HTTP call at each attempt
index.  On `HTTPStatusError` with `status != 429 and status < 500` the
exception is re-raised at once; otherwise (and on `RequestError`) the
loop re-raises on the last attempt (`attempt == 2`) and sleeps
`2 ** attempt` seconds before retrying otherwise.  `fuel` only bounds the
structural recursion; the loop always exits within `range(3)`.  (A run
out of fuel mirrors Python's falling off the loop end: no post, `None`.) -/
def postAttemptsFrom (responses : Nat → HttpResult) : Nat → Nat → PostRun
  | 0, _ => ⟨Except.ok (), 0, []⟩
  | _fuel + 1, attempt =>
    match responses attempt with
    | HttpResult.success => ⟨Except.ok (), 1, []⟩
    | HttpResult.status code =>
      if code ≠ 429 ∧ code < 500 then ⟨Except.error (PostError.httpStatus code), 1, []⟩
      else if attempt = 2 then ⟨Except.error (PostError.httpStatus code), 1, []⟩
      else
        let rest := postAttemptsFrom responses _fuel (attempt + 1)
        ⟨rest.result, rest.attempts + 1, 2 ^ attempt :: rest.sleeps⟩
    | HttpResult.netError =>
      if attempt = 2 then ⟨Except.error PostError.requestError, 1, []⟩
      else
        let rest := postAttemptsFrom responses _fuel (attempt + 1)
        ⟨rest.result, rest.attempts + 1, 2 ^ attempt :: rest.sleeps⟩

/-- `post_to_discord_webhook(client, **kwargs)`: up to 3 attempts starting
at attempt index 0. -/
def post_to_discord_webhook (responses : Nat → HttpResult) : PostRun :=
  postAttemptsFrom responses 3 0

/-- A response that the loop retries: a network-level failure, HTTP 429,
or any 5xx status. -/
def retryableResult (r : HttpResult) : Prop :=
  r = HttpResult.netError ∨ ∃ c, r = HttpResult.status c ∧ (c = 429 ∨ 500 ≤ c)

/-- Unfolding equation for `postAttemptsFrom` at positive fuel. -/
theorem postAttemptsFrom_succ (responses : Nat → HttpResult) (fuel attempt : Nat) :
    postAttemptsFrom responses (fuel + 1) attempt
      = match responses attempt with
        | HttpResult.success => ⟨Except.ok (), 1, []⟩
        | HttpResult.status code =>
          if code ≠ 429 ∧ code < 500 then ⟨Except.error (PostError.httpStatus code), 1, []⟩
          else if attempt = 2 then ⟨Except.error (PostError.httpStatus code), 1, []⟩
          else
            let rest := postAttemptsFrom responses fuel (attempt + 1)
            ⟨rest.result, rest.attempts + 1, 2 ^ attempt :: rest.sleeps⟩
        | HttpResult.netError =>
          if attempt = 2 then ⟨Except.error PostError.requestError, 1, []⟩
          else
            let rest := postAttemptsFrom responses fuel (attempt + 1)
            ⟨rest.result, rest.attempts + 1, 2 ^ attempt :: rest.sleeps⟩ := rfl

/-- On a retryable response at a non-final attempt, the loop sleeps and
recurses with one more attempt consumed. -/
theorem postAttemptsFrom_retry_step (responses : Nat → HttpResult) (fuel attempt : Nat)
    (h : retryableResult (responses attempt)) (hatt : attempt ≠ 2) :
    (postAttemptsFrom responses (fuel + 1) attempt).result
        = (postAttemptsFrom responses fuel (attempt + 1)).result ∧
    (postAttemptsFrom responses (fuel + 1) attempt).attempts
        = (postAttemptsFrom responses fuel (attempt + 1)).attempts + 1 := by
  rcases h with h | ⟨c, h, hc⟩
  · rw [postAttemptsFrom_succ, h]
    simp only [if_neg hatt]
    exact ⟨trivial, trivial⟩
  · have hcond : ¬ (c ≠ 429 ∧ c < 500) := by omega
    rw [postAttemptsFrom_succ, h]
    simp only [if_neg hcond, if_neg hatt]
    exact ⟨trivial, trivial⟩

/-- On a retryable response at the final attempt, the loop re-raises after
this single attempt. -/
theorem postAttemptsFrom_retry_last (responses : Nat → HttpResult) (fuel : Nat)
    (h : retryableResult (responses 2)) :
    ∃ e, postAttemptsFrom responses (fuel + 1) 2
      = ⟨Except.error e, 1, []⟩ := by
  rcases h with h | ⟨c, h, hc⟩
  · refine ⟨PostError.requestError, ?_⟩
    rw [postAttemptsFrom_succ, h]
    simp
  · refine ⟨PostError.httpStatus c, ?_⟩
    have hcond : ¬ (c ≠ 429 ∧ c < 500) := by omega
    rw [postAttemptsFrom_succ, h]
    simp [hcond]

/-- C3: retry classification of `post_to_discord_webhook`.  At most 3
attempts are ever made; if the first three outcomes are all retryable
(network failure, 429, or 5xx) the full budget of 3 attempts is used and
the call fails; a first response with any other 4xx status is surfaced
immediately after exactly 1 attempt with no retry and no backoff sleep. -/
theorem retry_classification (responses : Nat → HttpResult) :
    (post_to_discord_webhook responses).attempts ≤ 3 ∧
    ((∀ i, i < 3 → retryableResult (responses i)) →
      (post_to_discord_webhook responses).attempts = 3 ∧
      ∃ e, (post_to_discord_webhook responses).result = Except.error e) ∧
    (∀ c, 400 ≤ c → c < 500 → c ≠ 429 → responses 0 = HttpResult.status c →
      post_to_discord_webhook responses
        = ⟨Except.error (PostError.httpStatus c), 1, []⟩) := by
  refine ⟨?_, ?_, ?_⟩
  · unfold post_to_discord_webhook postAttemptsFrom
    rcases responses 0 with _ | c0 | _ <;>
      rcases h1 : responses 1 with _ | c1 | _ <;>
      rcases h2 : responses 2 with _ | c2 | _ <;>
      simp [h1, h2, postAttemptsFrom] <;> split <;> simp <;> split <;> simp
  · intro hretry
    have h0 := hretry 0 (by omega)
    have h1 := hretry 1 (by omega)
    have h2 := hretry 2 (by omega)
    obtain ⟨hr0, ha0⟩ := postAttemptsFrom_retry_step responses 2 0 h0 (by omega)
    obtain ⟨hr1, ha1⟩ := postAttemptsFrom_retry_step responses 1 1 h1 (by omega)
    obtain ⟨e, hlast⟩ := postAttemptsFrom_retry_last responses 0 h2
    unfold post_to_discord_webhook
    rw [show (3 : Nat) = 2 + 1 from rfl]
    refine ⟨?_, e, ?_⟩
    · rw [ha0, show (2 : Nat) = 1 + 1 from rfl, ha1, hlast]
    · rw [hr0, show (2 : Nat) = 1 + 1 from rfl, hr1, hlast]
  · intro c hge hlt hne h0
    unfold post_to_discord_webhook postAttemptsFrom
    simp [h0, hne, hlt]

/-- Witness for C3: three consecutive 503 responses use all 3 attempts and
fail; a single 400 response fails after exactly 1 attempt. -/
theorem retry_classification_witness :
    (post_to_discord_webhook (fun _ => HttpResult.status 503)).attempts = 3 ∧
    post_to_discord_webhook (fun _ => HttpResult.status 400)
      = ⟨Except.error (PostError.httpStatus 400), 1, []⟩ := by
  constructor
  · exact ((retry_classification (fun _ => HttpResult.status 503)).2.1
      (by intro i _; exact Or.inr ⟨503, rfl, Or.inr (by omega)⟩)).1
  · exact (retry_classification (fun _ => HttpResult.status 400)).2.2
      400 (by omega) (by omega) (by omega) rfl

/-- C2 counterexample: with 3 consecutive 503 responses the backoff sleeps
actually performed are 1s and 2s only — not the claimed 1s, 2s and 4s
(no sleep follows the final attempt). -/
theorem backoff_claim_counterexample :
    ¬ ((post_to_discord_webhook (fun _ => HttpResult.status 503)).attempts = 3 ∧
       (post_to_discord_webhook (fun _ => HttpResult.status 503)).sleeps = [1, 2, 4] ∧
       (post_to_discord_webhook (fun _ => HttpResult.status 503)).result
         = Except.error (PostError.httpStatus 503)) := by
  intro h
  have hs : (post_to_discord_webhook (fun _ => HttpResult.status 503)).sleeps = [1, 2] := by
    decide
  rw [hs] at h
  simp at h

/-- C2 (amended): 3 consecutive 503 responses cause exactly 3 attempts with
exponential backoff sleeps of 1s and 2s (`2 ** attempt` after each failed
non-final attempt; no sleep after the final attempt), and the call then
reports failure with the last 503. -/
theorem backoff_three_503 (responses : Nat → HttpResult)
    (h : ∀ i, i < 3 → responses i = HttpResult.status 503) :
    post_to_discord_webhook responses
      = ⟨Except.error (PostError.httpStatus 503), 3, [1, 2]⟩ := by
  have h0 := h 0 (by omega)
  have h1 := h 1 (by omega)
  have h2 := h 2 (by omega)
  unfold post_to_discord_webhook postAttemptsFrom
  simp [h0, h1, h2, postAttemptsFrom]

/-- Witness for C2 (amended) at the constant-503 response function. -/
theorem backoff_three_503_witness :
    post_to_discord_webhook (fun _ => HttpResult.status 503)
      = ⟨Except.error (PostError.httpStatus 503), 3, [1, 2]⟩ :=
  backoff_three_503 (fun _ => HttpResult.status 503) (fun _ _ => rfl)

/-! ## Data model: messages and media, `pick_telegram_media` -/

/-- One size variant of a Telegram photo. -/
structure PhotoSize where
  file_id : String
  file_size : Option Int
deriving DecidableEq

structure TgVideo where
  file_id : String
  file_name : Option String
  file_size : Option Int
deriving DecidableEq

structure TgAnimation where
  file_id : String
  file_name : Option String
  file_size : Option Int
deriving DecidableEq

structure TgDocument where
  file_id : String
  file_name : Option String
  file_size : Option Int
deriving DecidableEq

structure TgAudio where
  file_id : String
  file_name : Option String
  file_size : Option Int
deriving DecidableEq

structure TgVoice where
  file_id : String
  file_size : Option Int
deriving DecidableEq

structure TgVideoNote where
  file_id : String
  file_size : Option Int
deriving DecidableEq

structure TgSticker where
  file_id : String
  is_video : Bool
  file_size : Option Int
deriving DecidableEq

/-- The effective message of an update: the fields the source probes.
`photo` is the list of size variants (Telegram orders them by size;
`msg.photo[-1]` is its last and largest). -/
structure Message where
  message_id : Int
  text : Option String
  caption : Option String
  entities : List Entity
  caption_entities : List Entity
  photo : List PhotoSize
  video : Option TgVideo
  animation : Option TgAnimation
  document : Option TgDocument
  audio : Option TgAudio
  voice : Option TgVoice
  video_note : Option TgVideoNote
  sticker : Option TgSticker
deriving DecidableEq

/-- Python truthiness of an optional string (`None` and `""` are falsy). -/
def pyTruthy : Option String → Bool
  | some s => !s.data.isEmpty
  | none => false

/-- Python's `a or b` for an optional/empty file name
(`getattr(o, "file_name", None) or default`). -/
def pyOrStr (a : Option String) (b : String) : String :=
  match a with
  | some x => if x.data.isEmpty then b else x
  | none => b

/-- `pick_telegram_media(update)`: returns `(file_id, filename, file_size)`
or `None`, probing media kinds in the source's fixed order.
`msg.photo[-1]` is modelled by `getLast?` (`None` exactly when the Python
truthiness test `if msg.photo:` fails). -/
def pick_telegram_media (msg : Message) : Option (String × String × Option Int) :=
  match msg.photo.getLast? with
  | some photo =>
    some (photo.file_id, "photo_" ++ toString msg.message_id ++ ".jpg", photo.file_size)
  | none =>
  match msg.video with
  | some v =>
    some (v.file_id, pyOrStr v.file_name ("video_" ++ toString msg.message_id ++ ".mp4"),
      v.file_size)
  | none =>
  match msg.animation with
  | some a =>
    some (a.file_id, pyOrStr a.file_name ("animation_" ++ toString msg.message_id ++ ".mp4"),
      a.file_size)
  | none =>
  match msg.document with
  | some d =>
    some (d.file_id, pyOrStr d.file_name ("document_" ++ toString msg.message_id),
      d.file_size)
  | none =>
  match msg.audio with
  | some a =>
    some (a.file_id, pyOrStr a.file_name ("audio_" ++ toString msg.message_id ++ ".mp3"),
      a.file_size)
  | none =>
  match msg.voice with
  | some v => some (v.file_id, "voice_" ++ toString msg.message_id ++ ".ogg", v.file_size)
  | none =>
  match msg.video_note with
  | some vn =>
    some (vn.file_id, "video_note_" ++ toString msg.message_id ++ ".mp4", vn.file_size)
  | none =>
  match msg.sticker with
  | some st =>
    some (st.file_id, "sticker_" ++ toString msg.message_id ++ "." ++
      (if st.is_video then "webm" else "webp"), st.file_size)
  | none => none

/-- The media kinds, for the spec-side priority formulation. -/
inductive MediaKind where
  | photo | video | animation | document | audio | voice | videoNote | sticker
deriving DecidableEq

/-- The spec's fixed priority order:
photo -> video -> animation -> document -> audio -> voice -> video-note ->
sticker. -/
def mediaKindOrder : List MediaKind :=
  [MediaKind.photo, MediaKind.video, MediaKind.animation, MediaKind.document,
   MediaKind.audio, MediaKind.voice, MediaKind.videoNote, MediaKind.sticker]

/-- Whether a post carries media of the given kind (a photo is present when
its size-variant list is nonempty, i.e. `getLast?` yields a variant). -/
def kindPresent (msg : Message) : MediaKind → Bool
  | MediaKind.photo => msg.photo.getLast?.isSome
  | MediaKind.video => msg.video.isSome
  | MediaKind.animation => msg.animation.isSome
  | MediaKind.document => msg.document.isSome
  | MediaKind.audio => msg.audio.isSome
  | MediaKind.voice => msg.voice.isSome
  | MediaKind.videoNote => msg.video_note.isSome
  | MediaKind.sticker => msg.sticker.isSome

/-- Descriptor produced for one media kind (photo uses the last = largest
size variant). -/
def kindDescriptor (msg : Message) : MediaKind → Option (String × String × Option Int)
  | MediaKind.photo =>
    msg.photo.getLast?.map (fun p =>
      (p.file_id, "photo_" ++ toString msg.message_id ++ ".jpg", p.file_size))
  | MediaKind.video =>
    msg.video.map (fun v =>
      (v.file_id, pyOrStr v.file_name ("video_" ++ toString msg.message_id ++ ".mp4"),
        v.file_size))
  | MediaKind.animation =>
    msg.animation.map (fun a =>
      (a.file_id, pyOrStr a.file_name ("animation_" ++ toString msg.message_id ++ ".mp4"),
        a.file_size))
  | MediaKind.document =>
    msg.document.map (fun d =>
      (d.file_id, pyOrStr d.file_name ("document_" ++ toString msg.message_id),
        d.file_size))
  | MediaKind.audio =>
    msg.audio.map (fun a =>
      (a.file_id, pyOrStr a.file_name ("audio_" ++ toString msg.message_id ++ ".mp3"),
        a.file_size))
  | MediaKind.voice =>
    msg.voice.map (fun v =>
      (v.file_id, "voice_" ++ toString msg.message_id ++ ".ogg", v.file_size))
  | MediaKind.videoNote =>
    msg.video_note.map (fun vn =>
      (vn.file_id, "video_note_" ++ toString msg.message_id ++ ".mp4", vn.file_size))
  | MediaKind.sticker =>
    msg.sticker.map (fun st =>
      (st.file_id, "sticker_" ++ toString msg.message_id ++ "." ++
        (if st.is_video then "webm" else "webp"), st.file_size))

/-- The spec's formulation of media selection (`select(post)` in §4.3,
written here for comparison with `pick_telegram_media`): the first present
kind in the fixed priority order yields the descriptor. -/
def mediaSelectorSpec (msg : Message) : Option (String × String × Option Int) :=
  match mediaKindOrder.find? (kindPresent msg) with
  | some k => kindDescriptor msg k
  | none => none

/-! ## ContentAssembler: `build_discord_content` -/

/-- `build_discord_content(update)`: render the body (text, else caption,
else the media-only placeholder) with its entities, then append the
subscribe-link footer when the channel url is configured. -/
def build_discord_content (msg : Message) (channelUrl : Option String) : String :=
  let raw0 := if pyTruthy msg.text then msg.text.getD ""
    else if pyTruthy msg.caption then msg.caption.getD "" else ""
  let raw_text := if raw0.data.isEmpty then "(media-only post)" else raw0
  let entities := if pyTruthy msg.text then msg.entities else msg.caption_entities
  let text := apply_telegram_entities_to_discord_markdown raw_text entities
  let lines := if pyTruthy channelUrl then
      [text, "\n[Concordium News — subscribe](<" ++ channelUrl.getD "" ++ ">)"]
    else [text]
  String.intercalate "\n" lines

/-! ## DispatchClient: `send_to_discord` -/

/-- A webhook request the dispatch routine issues: the plain-JSON form
(`{"content": body}`) or the multipart form (`payload_json` with
`{"content": body}` plus the file field carrying `filename`). -/
inductive Request where
  | jsonReq : String → Request
  | multipartReq : String → String → Request
deriving DecidableEq

/-- Modelled from the spec: the `SentTextOnly(reason)` tag of
`DispatchOutcome` (§3); the only degrade reason is the size skip. -/
inductive SkipReason where
  | sizeExceeded
deriving DecidableEq

/-- Modelled from the spec: `DispatchOutcome = Sent | SentTextOnly(reason)
| Failed(cause)` (§3).  The source signals these by returning normally
from the corresponding branch or raising the wrapped exception. -/
inductive DispatchOutcome where
  | sent
  | sentTextOnly : SkipReason → DispatchOutcome
  | failed : PostError → DispatchOutcome
deriving DecidableEq

/-- Observable behaviour of one `send_to_discord` call: the webhook
request issued, whether the attachment fetch (`context.bot.get_file` +
download) ran, and the dispatch outcome. -/
structure SendResult where
  requests : List Request
  fetchCalled : Bool
  outcome : DispatchOutcome
deriving DecidableEq

/-- The size-skip notice the source appends:
`f"\n\n*(Media skipped: {file_size} bytes > Discord limit
{DISCORD_MAX_FILE_BYTES} bytes)*"`. -/
def sizeSkipNote (size limit : Int) : String :=
  "\n\n*(Media skipped: " ++ toString size ++ " bytes > Discord limit "
    ++ toString limit ++ " bytes)*"

/-- `send_to_discord(update, context)`: no media -> one JSON request;
media with known oversize -> one JSON request with the size-skip note and
no download; otherwise download then one multipart request.  `responses`
drives the embedded `post_to_discord_webhook` call; its failure becomes
the `Failed` outcome (the source's wrapped re-raise). -/
def send_to_discord (msg : Message) (channelUrl : Option String) (maxBytes : Int)
    (responses : Nat → HttpResult) : SendResult :=
  let content := build_discord_content msg channelUrl
  let outcomeOfPost : DispatchOutcome → DispatchOutcome := fun onOk =>
    match (post_to_discord_webhook responses).result with
    | Except.ok _ => onOk
    | Except.error e => DispatchOutcome.failed e
  match pick_telegram_media msg with
  | none =>
    { requests := [Request.jsonReq content], fetchCalled := false,
      outcome := outcomeOfPost DispatchOutcome.sent }
  | some (_fileId, filename, fileSize) =>
    match fileSize with
    | some sz =>
      if sz > maxBytes then
        { requests := [Request.jsonReq (content ++ sizeSkipNote sz maxBytes)],
          fetchCalled := false,
          outcome := outcomeOfPost (DispatchOutcome.sentTextOnly SkipReason.sizeExceeded) }
      else
        { requests := [Request.multipartReq content filename], fetchCalled := true,
          outcome := outcomeOfPost DispatchOutcome.sent }
    | none =>
      { requests := [Request.multipartReq content filename], fetchCalled := true,
        outcome := outcomeOfPost DispatchOutcome.sent }


/-! ## Theorems: media selection and size-gated dispatch -/

/-- C9: media selection follows the fixed priority order
photo → video → animation → document → audio → voice → video-note →
sticker, with exactly one branch firing (the first present kind, at most
one descriptor); in particular a post carrying both a photo and a document
selects the photo, using the last (largest) available size variant. -/
theorem media_priority_order :
    (∀ msg : Message, pick_telegram_media msg = mediaSelectorSpec msg) ∧
    (∀ msg : Message, msg.photo ≠ [] → msg.document ≠ none →
      pick_telegram_media msg = kindDescriptor msg MediaKind.photo) := by
  have hmain : ∀ msg : Message, pick_telegram_media msg = mediaSelectorSpec msg := by
    intro msg
    cases hp : msg.photo.getLast? with
    | some p =>
      simp [pick_telegram_media, mediaSelectorSpec, mediaKindOrder, kindPresent,
        kindDescriptor, List.find?, hp]
    | none =>
    cases hv : msg.video with
    | some v =>
      simp [pick_telegram_media, mediaSelectorSpec, mediaKindOrder, kindPresent,
        kindDescriptor, List.find?, hp, hv]
    | none =>
    cases ha : msg.animation with
    | some a =>
      simp [pick_telegram_media, mediaSelectorSpec, mediaKindOrder, kindPresent,
        kindDescriptor, List.find?, hp, hv, ha]
    | none =>
    cases hd : msg.document with
    | some d =>
      simp [pick_telegram_media, mediaSelectorSpec, mediaKindOrder, kindPresent,
        kindDescriptor, List.find?, hp, hv, ha, hd]
    | none =>
    cases hau : msg.audio with
    | some a =>
      simp [pick_telegram_media, mediaSelectorSpec, mediaKindOrder, kindPresent,
        kindDescriptor, List.find?, hp, hv, ha, hd, hau]
    | none =>
    cases hvo : msg.voice with
    | some v =>
      simp [pick_telegram_media, mediaSelectorSpec, mediaKindOrder, kindPresent,
        kindDescriptor, List.find?, hp, hv, ha, hd, hau, hvo]
    | none =>
    cases hvn : msg.video_note with
    | some vn =>
      simp [pick_telegram_media, mediaSelectorSpec, mediaKindOrder, kindPresent,
        kindDescriptor, List.find?, hp, hv, ha, hd, hau, hvo, hvn]
    | none =>
    cases hst : msg.sticker with
    | some st =>
      simp [pick_telegram_media, mediaSelectorSpec, mediaKindOrder, kindPresent,
        kindDescriptor, List.find?, hp, hv, ha, hd, hau, hvo, hvn, hst]
    | none =>
      simp [pick_telegram_media, mediaSelectorSpec, mediaKindOrder, kindPresent,
        kindDescriptor, List.find?, hp, hv, ha, hd, hau, hvo, hvn, hst]
  refine ⟨hmain, ?_⟩
  intro msg hph _hdoc
  obtain ⟨p, hp⟩ : ∃ p, msg.photo.getLast? = some p := by
    cases hp : msg.photo.getLast? with
    | some p => exact ⟨p, rfl⟩
    | none =>
      exfalso
      exact hph (by
        cases hl : msg.photo with
        | nil => rfl
        | cons a as =>
          rw [hl] at hp
          simp [List.getLast?_eq_getLast] at hp)
  simp [pick_telegram_media, kindDescriptor, hp]

/-- A post carrying two photo size variants and a document. -/
def msgPhotoDoc : Message :=
  ⟨5, none, none, [], [], [⟨"p1", some 3⟩, ⟨"p2", some 10⟩], none, none,
   some ⟨"doc1", some "d.pdf", some 7⟩, none, none, none, none⟩

/-- Witness for C9: with both a photo and a document present, the photo's
largest (last) size variant is selected. -/
theorem media_priority_order_witness :
    pick_telegram_media msgPhotoDoc = kindDescriptor msgPhotoDoc MediaKind.photo ∧
    pick_telegram_media msgPhotoDoc = some ("p2", "photo_5.jpg", some 10) := by
  have h := media_priority_order.2 msgPhotoDoc (by decide) (by decide)
  exact ⟨h, by rw [h]; decide⟩

/-- C4: a selected media descriptor with a known declared size strictly
above the byte budget is never downloaded: the attachment fetch does not
run, a single text-only JSON request carrying the size-skip notice is
sent, and (when that request succeeds) the outcome is
`SentTextOnly(sizeExceeded)`. -/
theorem oversize_skips_download (msg : Message) (channelUrl : Option String)
    (maxBytes : Int) (fid fname : String) (sz : Int)
    (hpick : pick_telegram_media msg = some (fid, fname, some sz))
    (hsz : maxBytes < sz) :
    (∀ responses : Nat → HttpResult,
      (send_to_discord msg channelUrl maxBytes responses).fetchCalled = false ∧
      (send_to_discord msg channelUrl maxBytes responses).requests
        = [Request.jsonReq (build_discord_content msg channelUrl
            ++ sizeSkipNote sz maxBytes)]) ∧
    (∀ responses : Nat → HttpResult,
      (post_to_discord_webhook responses).result = Except.ok () →
      (send_to_discord msg channelUrl maxBytes responses).outcome
        = DispatchOutcome.sentTextOnly SkipReason.sizeExceeded) := by
  constructor
  · intro responses
    simp only [send_to_discord, hpick]
    rw [if_pos hsz]
    exact ⟨rfl, rfl⟩
  · intro responses hok
    simp only [send_to_discord, hpick]
    rw [if_pos hsz]
    simp [hok]

/-- A media-only post with a document one byte over the default limit. -/
def msgOversizeDoc : Message :=
  ⟨1, none, none, [], [], [], none, none, some ⟨"doc1", none, some 8388609⟩,
   none, none, none, none⟩

/-- Witness for C4: `declaredSize = maxBytes + 1` skips the download and
yields `SentTextOnly(sizeExceeded)`. -/
theorem oversize_skips_download_witness :
    (send_to_discord msgOversizeDoc none 8388608 (fun _ => HttpResult.success)).fetchCalled
      = false ∧
    (send_to_discord msgOversizeDoc none 8388608 (fun _ => HttpResult.success)).outcome
      = DispatchOutcome.sentTextOnly SkipReason.sizeExceeded := by
  have h := oversize_skips_download msgOversizeDoc none 8388608 "doc1" "document_1"
    8388609 (by decide) (by decide)
  exact ⟨(h.1 (fun _ => HttpResult.success)).1,
    h.2 (fun _ => HttpResult.success) rfl⟩

def hasPrefixL : List Char → List Char → Bool
  | [], _ => true
  | _ :: _, [] => false
  | a :: as, b :: bs => a == b && hasPrefixL as bs

/-- Substring test on character lists (used to state that the claimed
notice text does not occur in the body actually sent). -/
def hasInfixL (p : List Char) : List Char → Bool
  | [] => hasPrefixL p []
  | b :: rest => hasPrefixL p (b :: rest) || hasInfixL p rest

/-- A media-only post with a 9000000-byte document. -/
def msgNoteDoc : Message :=
  ⟨1, none, none, [], [], [], none, none, some ⟨"doc1", none, some 9000000⟩,
   none, none, none, none⟩

/-- C8 counterexample: at a concrete oversize post, the body actually sent
is `content ++ "\n\n*(Media skipped: 9000000 bytes > Discord limit
8388608 bytes)*"`; the claimed notice text `"Media skipped: 9000000 bytes
> limit 8388608 bytes"` does not occur anywhere in that body (the source
says "Discord limit", not "limit", and wraps the notice in `*(...)*`). -/
theorem size_skip_claim_counterexample :
    (send_to_discord msgNoteDoc none 8388608 (fun _ => HttpResult.success)).requests
      = [Request.jsonReq
          "(media-only post)\n\n*(Media skipped: 9000000 bytes > Discord limit 8388608 bytes)*"]
    ∧ hasInfixL ("Media skipped: 9000000 bytes > limit 8388608 bytes").data
        ("(media-only post)\n\n*(Media skipped: 9000000 bytes > Discord limit 8388608 bytes)*").data
      = false := by
  constructor
  · decide
  · decide

/-- C8 (amended): when the selected media's declared size exceeds the
budget, the body actually sent is the assembled content followed by the
notice `"\n\n*(Media skipped: {size} bytes > Discord limit {limit}
bytes)*"`, and no attachment is sent (no multipart request, no fetch). -/
theorem size_skip_notice_text (msg : Message) (channelUrl : Option String)
    (maxBytes : Int) (fid fname : String) (sz : Int)
    (hpick : pick_telegram_media msg = some (fid, fname, some sz))
    (hsz : maxBytes < sz) (responses : Nat → HttpResult) :
    (send_to_discord msg channelUrl maxBytes responses).requests
      = [Request.jsonReq (build_discord_content msg channelUrl
          ++ ("\n\n*(Media skipped: " ++ toString sz ++ " bytes > Discord limit "
              ++ toString maxBytes ++ " bytes)*"))] ∧
    (send_to_discord msg channelUrl maxBytes responses).fetchCalled = false := by
  simp only [send_to_discord, hpick]
  rw [if_pos hsz]
  exact ⟨rfl, rfl⟩

/-- Witness for C8 (amended) at the concrete oversize post. -/
theorem size_skip_notice_text_witness :
    (send_to_discord msgNoteDoc none 8388608 (fun _ => HttpResult.success)).requests
      = [Request.jsonReq
          "(media-only post)\n\n*(Media skipped: 9000000 bytes > Discord limit 8388608 bytes)*"] := by
  have h := (size_skip_notice_text msgNoteDoc none 8388608 "doc1" "document_1"
    9000000 (by decide) (by decide) (fun _ => HttpResult.success)).1
  rw [h]
  decide

end TelegramBridge
